import Mathlib

/-!
Shallow embedding of the conversation-continuity and streaming-relay layer of
the pollygolt backend worker (src/index.ts).

The worker keeps a process-local map from session id to a `Conversation`
(message history plus upstream continuation tokens) and exposes three
handlers: start-conversation, a synchronous message relay and a streaming
message relay.  The upstream completion API is modelled as an oracle
function supplied to each handler: the synchronous relay receives either a
success carrying `{id, output_text}` or a failure (an exception), the
streaming relay receives either `none` (the stream creation threw) or a list
of typed events together with a flag saying whether the event iterator
throws after the listed events are exhausted.

JavaScript truthiness checks in the source (`!sessionId`, `event.delta`,
`responseIds[len-1] || null`, `if (responseId)`) are embedded as explicit
tests against the empty string / `none`, exactly where the source performs
them.  Numeric pass-through fields of the upstream request (`temperature`,
`max_output_tokens`) and the constant `store: true` flag are not modelled:
no claim refers to them and `temperature` is floating point.
-/

namespace Pollygolt

/-- The supported target languages (`type TargetLang` in the source). -/
inductive TargetLang where
  | en | fr | es | ja | ar
deriving DecidableEq, Repr, Fintype

/-- `langName` record from the source: display name of each language. -/
def langName : TargetLang → String
  | .en => "English"
  | .fr => "French"
  | .es => "Spanish"
  | .ja => "Japanese"
  | .ar => "Arabic"

/-- The five own keys of the `langName` record literal — the supported
codes — together with the cast to `TargetLang`.  This is NOT by itself the
runtime membership check of the source: the `in` operator also consults the
prototype chain (see `jsInLangName`). -/
def parseLang : String → Option TargetLang
  | "en" => some .en
  | "fr" => some .fr
  | "es" => some .es
  | "ja" => some .ja
  | "ar" => some .ar
  | _ => none

/-- The property names an object literal inherits from `Object.prototype`
in the target runtime (V8), all visible to the `in` operator: the standard
methods plus the Annex-B accessors. -/
def objectProtoKeys : List String :=
  ["constructor", "hasOwnProperty", "isPrototypeOf", "propertyIsEnumerable",
   "toLocaleString", "toString", "valueOf", "__proto__",
   "__defineGetter__", "__defineSetter__", "__lookupGetter__",
   "__lookupSetter__"]

/-- Embedding of the runtime check `targetLang in langName`: JavaScript `in`
is true for the five own keys of the record literal AND for every property
name inherited from `Object.prototype`, so e.g. `"toString" in langName`
holds even though `toString` is not a supported code. -/
def jsInLangName (s : String) : Bool :=
  (parseLang s).isSome || objectProtoKeys.contains s

/-- `getLanguageInstructions` from the source: the base directive (with the
language name interpolated three times) followed by the language-specific
directive. -/
def getLanguageInstructions (targetLang : TargetLang) : String :=
  let baseInstructions :=
    "You are a helpful AI assistant. You MUST respond ONLY in " ++ langName targetLang ++
    ". Do not use any other language. Always respond in " ++ langName targetLang ++
    " regardless of what language the user writes in. Maintain conversational context and handle follow-up questions naturally, but always in " ++
    langName targetLang ++ "."
  let specificInstructions : String :=
    match targetLang with
    | .en => "Respond in English only. Use proper English grammar and vocabulary."
    | .fr => "Répondez uniquement en français. Utilisez une grammaire et un vocabulaire français corrects."
    | .es => "Responde únicamente en español. Usa gramática y vocabulario español correctos."
    | .ja => "日本語でのみ回答してください。正しい日本語の文法と語彙を使用してください。"
    | .ar => "أجب باللغة العربية فقط. استخدم قواعد اللغة العربية والمفردات الصحيحة."
  baseInstructions ++ " " ++ specificInstructions

/-- The property access `langName[targetLang]` at the request level: the own
entry for a supported code; for an inherited `Object.prototype` member
(which passed validation via `in`) the access yields the inherited value,
whose template-literal stringification is host-defined text the source does
not determine — it is modelled by the explicit marker below, and no claim
statement depends on that text. -/
def langNameJs (s : String) : String :=
  match parseLang s with
  | some lang => langName lang
  | none => "[inherited Object.prototype member " ++ s ++ "]"

/-- `getLanguageInstructions(targetLang)` at the request level: the real
instruction text for a supported code; for an inherited key the source
interpolates host-defined stringifications (see `langNameJs`), modelled with
the same markers.  No claim statement depends on the marker text. -/
def getLanguageInstructionsJs (s : String) : String :=
  match parseLang s with
  | some lang => getLanguageInstructions lang
  | none =>
    "You are a helpful AI assistant. You MUST respond ONLY in " ++ langNameJs s ++
    ". Do not use any other language. Always respond in " ++ langNameJs s ++
    " regardless of what language the user writes in. Maintain conversational context and handle follow-up questions naturally, but always in " ++
    langNameJs s ++ ". " ++ "[inherited Object.prototype member " ++ s ++ "]"

/-- Does `pat` occur as a contiguous run at the head of `hay`? -/
def startsWithChars : List Char → List Char → Bool
  | _, [] => true
  | [], _ :: _ => false
  | h :: t, p :: q => h == p && startsWithChars t q

/-- Does `pat` occur as a contiguous run anywhere inside `hay`? -/
def hasInfixChars : List Char → List Char → Bool
  | [], pat => startsWithChars [] pat
  | h :: t, pat => startsWithChars (h :: t) pat || hasInfixChars t pat

/-- Substring containment on strings, used to state that an instruction text
names its target language. -/
def strContainsSub (s pat : String) : Bool :=
  hasInfixChars s.data pat.data

/-- The whitespace set trimmed by JavaScript `String.prototype.trim` (the
ASCII part; exotic Unicode spaces never occur in the claims). -/
def isJsWhitespace (c : Char) : Bool :=
  c == ' ' || c == '\t' || c == '\n' || c == '\r' || c == '\x0b' || c == '\x0c'

/-- Embedding of `output_text.trim()`. -/
def jsTrim (s : String) : String :=
  ⟨((s.data.dropWhile isJsWhitespace).reverse.dropWhile isJsWhitespace).reverse⟩

/-- Message roles stored in a conversation. -/
inductive Role where
  | user | assistant
deriving DecidableEq, Repr

/-- One stored turn: `{role, content}`. -/
structure Msg where
  role : Role
  content : String
deriving DecidableEq, Repr

/-- The per-session state kept in the worker-global `conversations` map. -/
structure Conversation where
  responseIds : List String
  messages : List Msg
deriving DecidableEq, Repr

/-- The `conversations` map, embedded as an insertion-ordered association
list (JavaScript `Map` preserves insertion order). -/
abbrev Store := List (String × Conversation)

/-- `conversations.get(sessionId)`. -/
def Store.find? : Store → String → Option Conversation
  | [], _ => none
  | (k, v) :: rest, sid => if k == sid then some v else Store.find? rest sid

/-- `conversations.set(sessionId, conv)`: replace the existing binding in
place, or append a new binding at the end. -/
def Store.set : Store → String → Conversation → Store
  | [], sid, c => [(sid, c)]
  | (k, v) :: rest, sid, c =>
    if k == sid then (sid, c) :: rest else (k, v) :: Store.set rest sid c

/-- `conversation.responseIds[conversation.responseIds.length - 1] || null`:
the last continuation token, except that an empty-string token is collapsed
to `null` by the `||`. -/
def lastTokenOrNull (c : Conversation) : Option String :=
  match c.responseIds.getLast? with
  | none => none
  | some t => if t == "" then none else some t

/-- `` `session_${Date.now()}_${Math.random().toString(36).substr(2, 9)}` ``:
the session identifier built from the millisecond timestamp and the random
base-36 suffix, both supplied as oracle inputs. -/
def mkSessionId (now : Nat) (rand : String) : String :=
  "session_" ++ Nat.repr now ++ "_" ++ rand

/-- `handleStartConversation`: mint an identifier from the two oracle draws
and insert an empty conversation under it (a colliding identifier silently
resets the existing session, as `Map.set` overwrites). -/
def handleStartConversation (now : Nat) (rand : String) (st : Store) :
    Store × String :=
  let sessionId := mkSessionId now rand
  (Store.set st sessionId ⟨[], []⟩, sessionId)

/-- Run `handleStartConversation` once per oracle draw, collecting the
returned identifiers in order. -/
def runCreates : List (Nat × String) → Store → Store × List String
  | [], st => (st, [])
  | d :: ds, st =>
    let (st1, sid) := handleStartConversation d.1 d.2 st
    let (st2, sids) := runCreates ds st1
    (st2, sid :: sids)

/-- The body fields of a relay request (sync and streaming share the shape);
`temperature`/`maxTokens` are numeric pass-throughs not modelled. -/
structure MessageRequest where
  sessionId : String
  message : String
  targetLang : String
deriving DecidableEq, Repr

/-- The fields of the upstream `openai.responses.create` call that the
claims refer to. -/
structure UpstreamRequest where
  model : String
  instructions : String
  input : String
  previous_response_id : Option String
deriving DecidableEq, Repr

/-- Build the upstream request exactly as both relay handlers do. -/
def mkUpstreamRequest (lang : TargetLang) (message : String)
    (prev : Option String) : UpstreamRequest :=
  { model := "gpt-4o-mini"
    instructions := getLanguageInstructions lang
    input := "User message: " ++ message ++ "\n\nPlease respond in " ++
      langName lang ++ " only."
    previous_response_id := prev }

/-- Outcome of the synchronous upstream call: a response object carrying
`id` and `output_text`, or a thrown exception. -/
inductive SyncUpstreamResult where
  | success (id : String) (output_text : String)
  | failure
deriving DecidableEq, Repr

/-- The HTTP-level result of the synchronous relay handler. -/
inductive SyncResult where
  | invalidRequest
  | missingKey
  | notFound
  | ok (message : String) (responseId : String)
  | upstreamError
deriving DecidableEq, Repr

/-- Everything observable about one synchronous relay call: the store after
the call, the result sent to the caller, and the upstream request issued (if
any). -/
structure SyncOutcome where
  store : Store
  result : SyncResult
  upstreamCall : Option UpstreamRequest
deriving DecidableEq, Repr

/-- `conversation.messages.push({role: 'user', content: message})`. -/
def appendUser (c : Conversation) (m : String) : Conversation :=
  { c with messages := c.messages ++ [⟨.user, m⟩] }

/-- The upstream request both relay handlers build after appending the user
turn (the token list is untouched by that push, so the prior-context field
reads the state as it stood when the call began). -/
def sentRequest (lang : TargetLang) (req : MessageRequest)
    (conv : Conversation) : UpstreamRequest :=
  mkUpstreamRequest lang req.message (lastTokenOrNull (appendUser conv req.message))

/-- The upstream request at the request level, defined for every
`targetLang` string that passed the `in` check — including inherited
`Object.prototype` keys, for which the interpolated texts are the
host-defined stringifications modelled in `langNameJs` /
`getLanguageInstructionsJs`.  Agrees with `sentRequest` on supported
codes. -/
def sentRequestJs (req : MessageRequest) (conv : Conversation) :
    UpstreamRequest :=
  { model := "gpt-4o-mini"
    instructions := getLanguageInstructionsJs req.targetLang
    input := "User message: " ++ req.message ++ "\n\nPlease respond in " ++
      langNameJs req.targetLang ++ " only."
    previous_response_id := lastTokenOrNull (appendUser conv req.message) }

/-- The success-path commit of the synchronous relay:
`responseIds.push(response.id); messages.push({role:'assistant', content: output_text.trim()})`. -/
def commitSync (c : Conversation) (id out : String) : Conversation :=
  { c with
    responseIds := c.responseIds ++ [id]
    messages := c.messages ++ [⟨.assistant, jsTrim out⟩] }

/-- `handleMessage`: validate (`!sessionId || !message || !targetLang ||
!(targetLang in langName)`, the last test via the prototype-chain-aware
`jsInLangName`), check credentials, look up the session, append the user
turn, call upstream with the last continuation token as prior context, and
on success commit the assistant turn and token. -/
def handleMessage (apiKey : String) (st : Store) (req : MessageRequest)
    (upstream : UpstreamRequest → SyncUpstreamResult) : SyncOutcome :=
  if req.sessionId == "" || req.message == "" || req.targetLang == "" ||
      !(jsInLangName req.targetLang) then
    ⟨st, .invalidRequest, none⟩
  else
    if apiKey == "" then ⟨st, .missingKey, none⟩
    else
      match Store.find? st req.sessionId with
      | none => ⟨st, .notFound, none⟩
      | some conv =>
        match upstream (sentRequestJs req conv) with
        | .failure =>
          ⟨Store.set st req.sessionId (appendUser conv req.message),
            .upstreamError, some (sentRequestJs req conv)⟩
        | .success id out =>
          ⟨Store.set st req.sessionId
              (commitSync (appendUser conv req.message) id out),
            .ok (jsTrim out) id, some (sentRequestJs req conv)⟩

/-- One event of the upstream streaming iterator, as the source inspects it:
a `type` string together with the optional fields the handler reads.
`has_response` embeds the duck-typed check `'response' in event`,
`response_id` embeds `event.response?.id`, `response_error` embeds the
truthiness of `event.response?.error`, `delta` embeds `event.delta`. -/
structure StreamEvent where
  type : String
  delta : Option String := none
  response_id : Option String := none
  has_response : Bool := false
  response_error : Bool := false
deriving DecidableEq, Repr

/-- State of the caller-facing `ReadableStream` controller. -/
inductive ChannelState where
  | open_ | closed | errored
deriving DecidableEq, Repr

/-- The mutable locals of the streaming loop plus the observable channel:
`fullResponse` and `responseId` are the two `let` variables of `start`,
`chunks` records every `controller.enqueue` in order, `channel` records
`close`/`error` calls on the controller. -/
structure LoopState where
  fullResponse : String
  responseId : String
  chunks : List String
  channel : ChannelState
deriving DecidableEq, Repr

/-- The loop state at `start`: empty buffer, empty identifier, nothing
enqueued, channel open. -/
def initLoopState : LoopState := ⟨"", "", [], .open_⟩

/-- How the `for await` loop terminated: the event list ran out without a
`done` or error event, the loop broke at `response.output_text.done`, or it
returned from an error-bearing event. -/
inductive ExitKind where
  | ranOut | closedAtDone | erroredOut
deriving DecidableEq, Repr

/-- `event.type === 'response.output_text.done'`. -/
def StreamEvent.isDone (e : StreamEvent) : Bool :=
  e.type == "response.output_text.done"

/-- `'response' in event && event.response?.error` (truthiness of the error
payload). -/
def StreamEvent.isErr (e : StreamEvent) : Bool :=
  e.has_response && e.response_error

/-- `event.type === 'response.output_text.delta' && event.delta`: a delta
event whose payload is truthy (present and non-empty). -/
def StreamEvent.isTruthyDelta (e : StreamEvent) : Bool :=
  e.type == "response.output_text.delta" &&
    (match e.delta with | some d => d != "" | none => false)

/-- An event that neither breaks the loop at `done` nor returns through the
error branch. -/
def StreamEvent.isPlain (e : StreamEvent) : Bool :=
  !e.isDone && !e.isErr

/-- The creation branch of one loop iteration: on a `response.created`
event, `responseId = event.response?.id || ''`. -/
def stepCreated (s : LoopState) (e : StreamEvent) : LoopState :=
  if e.type == "response.created" then
    { s with responseId := e.response_id.getD "" }
  else s

/-- The delta branch of one loop iteration: on a truthy delta, append the
payload to the buffer and enqueue it. -/
def stepDelta (s : LoopState) (e : StreamEvent) : LoopState :=
  if e.isTruthyDelta then
    { s with
      fullResponse := s.fullResponse ++ e.delta.getD ""
      chunks := s.chunks ++ [e.delta.getD ""] }
  else s

/-- The effect of one loop iteration on the locals, before the `done` and
error checks: the creation branch, then the delta branch, in source
order. -/
def stepPlain (s : LoopState) (e : StreamEvent) : LoopState :=
  stepDelta (stepCreated s e) e

/-- The `for await (const event of openaiStream)` loop: per event, run the
creation and delta branches, then break at `done` (closing the channel) or
return at an error-bearing event (erroring the channel). -/
def runLoop : List StreamEvent → LoopState → LoopState × ExitKind
  | [], s => (s, .ranOut)
  | e :: rest, s =>
    let s2 := stepPlain s e
    if e.isDone then ({ s2 with channel := .closed }, .closedAtDone)
    else if e.isErr then ({ s2 with channel := .errored }, .erroredOut)
    else runLoop rest s2

/-- Commit the accumulated buffer and identifier to the conversation
(`responseIds.push(responseId); messages.push({role:'assistant', ...})`). -/
def commitStream (c : Conversation) (s : LoopState) : Conversation :=
  { c with
    responseIds := c.responseIds ++ [s.responseId]
    messages := c.messages ++ [⟨.assistant, s.fullResponse⟩] }

/-- The HTTP-level result of the streaming relay handler: an early JSON
error, or a stream whose enqueued chunks and final channel state are
recorded. -/
inductive StreamResult where
  | invalidRequest
  | missingKey
  | notFound
  | streamed (chunks : List String) (channel : ChannelState)
deriving DecidableEq, Repr

/-- Everything observable about one streaming relay call. -/
structure StreamOutcome where
  store : Store
  result : StreamResult
  upstreamCall : Option UpstreamRequest
deriving DecidableEq, Repr

/-- `handleStreamMessage`: validate, check credentials, look up the session,
append the user turn, issue the streaming upstream call, drive the event
loop, and commit the buffer only when an identifier was captured and the
loop did not exit through the error paths.  The upstream oracle returns
`none` when `openai.responses.create` itself throws; otherwise it returns
the event list and a flag saying whether the iterator throws after the
listed events (both throw paths land in the `catch`, which errors the
channel and skips the commit). -/
def handleStreamMessage (apiKey : String) (st : Store) (req : MessageRequest)
    (upstream : UpstreamRequest → Option (List StreamEvent × Bool)) :
    StreamOutcome :=
  if req.sessionId == "" || req.message == "" || req.targetLang == "" ||
      !(jsInLangName req.targetLang) then
    ⟨st, .invalidRequest, none⟩
  else
    if apiKey == "" then ⟨st, .missingKey, none⟩
    else
      match Store.find? st req.sessionId with
      | none => ⟨st, .notFound, none⟩
      | some conv =>
        match upstream (sentRequestJs req conv) with
        | none =>
          ⟨Store.set st req.sessionId (appendUser conv req.message),
            .streamed [] .errored, some (sentRequestJs req conv)⟩
        | some (evs, throwsAtEnd) =>
          match runLoop evs initLoopState with
          | (s, .closedAtDone) =>
            ⟨(if s.responseId == "" then
                Store.set st req.sessionId (appendUser conv req.message)
              else
                Store.set st req.sessionId
                  (commitStream (appendUser conv req.message) s)),
              .streamed s.chunks .closed, some (sentRequestJs req conv)⟩
          | (s, .erroredOut) =>
            ⟨Store.set st req.sessionId (appendUser conv req.message),
              .streamed s.chunks .errored, some (sentRequestJs req conv)⟩
          | (s, .ranOut) =>
            if throwsAtEnd then
              ⟨Store.set st req.sessionId (appendUser conv req.message),
                .streamed s.chunks .errored, some (sentRequestJs req conv)⟩
            else
              ⟨(if s.responseId == "" then
                  Store.set st req.sessionId (appendUser conv req.message)
                else
                  Store.set st req.sessionId
                    (commitStream (appendUser conv req.message) s)),
                .streamed s.chunks s.channel, some (sentRequestJs req conv)⟩

/-- The payloads of the text-delta events that carry a `delta` field, in
arrival order. -/
def deltaPayloads (evs : List StreamEvent) : List String :=
  (evs.filter fun e =>
      e.type == "response.output_text.delta" && e.delta.isSome).map
    fun e => e.delta.getD ""

/-- The payloads of the truthy (non-empty) text-delta events, in arrival
order — exactly what the loop enqueues. -/
def truthyDeltaPayloads (evs : List StreamEvent) : List String :=
  (evs.filter StreamEvent.isTruthyDelta).map fun e => e.delta.getD ""

/-- Concatenation of a list of strings. -/
def catStrings : List String → String
  | [] => ""
  | x :: xs => x ++ catStrings xs

/-- The value of `responseId` after the creation branches of the listed
events have run, starting from `r`. -/
def ridAfter (evs : List StreamEvent) (r : String) : String :=
  evs.foldl
    (fun r e =>
      if e.type == "response.created" then e.response_id.getD "" else r) r

/-- Number of assistant turns in a message list. -/
def assistantCount (ms : List Msg) : Nat :=
  (ms.filter fun m => m.role == .assistant).length

/-- The per-session invariant of spec §3: one continuation token per
completed assistant turn. -/
def convInv (c : Conversation) : Prop :=
  c.responseIds.length = assistantCount c.messages

/-- The invariant holds of every session in the store. -/
def storeInv (st : Store) : Prop :=
  ∀ p ∈ st, convInv p.2

instance (c : Conversation) : Decidable (convInv c) := by
  unfold convInv; infer_instance

instance (st : Store) : Decidable (storeInv st) := by
  unfold storeInv; infer_instance

/-! ### Store lemmas -/

theorem Store.find?_mem {st : Store} {sid : String} {c : Conversation}
    (h : Store.find? st sid = some c) : (sid, c) ∈ st := by
  induction st with
  | nil => simp [Store.find?] at h
  | cons p rest ih =>
    obtain ⟨k, v⟩ := p
    by_cases hk : k == sid
    · simp only [Store.find?, hk, if_true] at h
      cases h
      have hks : k = sid := by simpa using hk
      subst hks
      exact List.mem_cons_self _ _
    · simp only [Store.find?, hk, if_false] at h
      exact List.mem_cons_of_mem _ (ih h)

theorem Store.mem_set {st : Store} {sid : String} {c : Conversation}
    {p : String × Conversation} (h : p ∈ Store.set st sid c) :
    p = (sid, c) ∨ p ∈ st := by
  induction st with
  | nil => simpa [Store.set] using h
  | cons q rest ih =>
    obtain ⟨k, v⟩ := q
    by_cases hk : k == sid
    · simp only [Store.set, hk, if_true] at h
      rcases List.mem_cons.mp h with h1 | h2
      · exact Or.inl h1
      · exact Or.inr (List.mem_cons_of_mem _ h2)
    · simp only [Store.set, hk, if_false] at h
      rcases List.mem_cons.mp h with h1 | h2
      · exact Or.inr (by simp [h1])
      · rcases ih h2 with h3 | h4
        · exact Or.inl h3
        · exact Or.inr (List.mem_cons_of_mem _ h4)

theorem storeInv_set {st : Store} {sid : String} {c : Conversation}
    (h : storeInv st) (hc : convInv c) : storeInv (Store.set st sid c) := by
  intro p hp
  rcases Store.mem_set hp with h1 | h2
  · simpa [h1] using hc
  · exact h p h2

theorem storeInv_find? {st : Store} {sid : String} {c : Conversation}
    (h : storeInv st) (hc : Store.find? st sid = some c) : convInv c :=
  h (sid, c) (Store.find?_mem hc)

/-! ### Conversation invariant lemmas -/

theorem assistantCount_append_user (ms : List Msg) (m : String) :
    assistantCount (ms ++ [⟨.user, m⟩]) = assistantCount ms := by
  simp [assistantCount, List.filter_append]

theorem assistantCount_append_assistant (ms : List Msg) (m : String) :
    assistantCount (ms ++ [⟨.assistant, m⟩]) = assistantCount ms + 1 := by
  simp [assistantCount, List.filter_append]

theorem convInv_appendUser {c : Conversation} (h : convInv c) (m : String) :
    convInv (appendUser c m) := by
  simpa [convInv, appendUser, assistantCount_append_user] using h

theorem convInv_commitSync {c : Conversation} (h : convInv c)
    (id out : String) : convInv (commitSync c id out) := by
  simp [convInv, commitSync, assistantCount_append_assistant]
  simpa [convInv] using h

theorem convInv_commitStream {c : Conversation} (h : convInv c)
    (s : LoopState) : convInv (commitStream c s) := by
  simp [convInv, commitStream, assistantCount_append_assistant]
  simpa [convInv] using h

/-! ### Streaming loop lemmas -/

theorem stepCreated_channel (s : LoopState) (e : StreamEvent) :
    (stepCreated s e).channel = s.channel := by
  unfold stepCreated; split <;> rfl

theorem stepDelta_channel (s : LoopState) (e : StreamEvent) :
    (stepDelta s e).channel = s.channel := by
  unfold stepDelta; split <;> rfl

theorem stepPlain_channel (s : LoopState) (e : StreamEvent) :
    (stepPlain s e).channel = s.channel := by
  simp [stepPlain, stepDelta_channel, stepCreated_channel]

theorem stepCreated_chunks (s : LoopState) (e : StreamEvent) :
    (stepCreated s e).chunks = s.chunks := by
  unfold stepCreated; split <;> rfl

theorem stepCreated_fullResponse (s : LoopState) (e : StreamEvent) :
    (stepCreated s e).fullResponse = s.fullResponse := by
  unfold stepCreated; split <;> rfl

theorem stepDelta_responseId (s : LoopState) (e : StreamEvent) :
    (stepDelta s e).responseId = s.responseId := by
  unfold stepDelta; split <;> rfl

theorem stepPlain_chunks (s : LoopState) (e : StreamEvent) :
    (stepPlain s e).chunks =
      s.chunks ++ (if e.isTruthyDelta then [e.delta.getD ""] else []) := by
  unfold stepPlain stepDelta
  split <;> simp [stepCreated_chunks]

theorem stepPlain_fullResponse (s : LoopState) (e : StreamEvent) :
    (stepPlain s e).fullResponse =
      s.fullResponse ++ (if e.isTruthyDelta then e.delta.getD "" else "") := by
  unfold stepPlain stepDelta
  split <;> simp [stepCreated_fullResponse]

theorem stepPlain_responseId (s : LoopState) (e : StreamEvent) :
    (stepPlain s e).responseId =
      (if e.type == "response.created" then e.response_id.getD ""
       else s.responseId) := by
  unfold stepPlain stepCreated
  split <;> simp [stepDelta_responseId]

theorem foldl_stepPlain_channel (pre : List StreamEvent) (s : LoopState) :
    (pre.foldl stepPlain s).channel = s.channel := by
  induction pre generalizing s with
  | nil => rfl
  | cons e t ih => simp [List.foldl_cons, ih, stepPlain_channel]

theorem truthyDeltaPayloads_cons (e : StreamEvent) (t : List StreamEvent) :
    truthyDeltaPayloads (e :: t) =
      (if e.isTruthyDelta then [e.delta.getD ""] else []) ++
        truthyDeltaPayloads t := by
  unfold truthyDeltaPayloads
  by_cases h : e.isTruthyDelta <;> simp [List.filter_cons, h]

theorem foldl_stepPlain_chunks (pre : List StreamEvent) (s : LoopState) :
    (pre.foldl stepPlain s).chunks = s.chunks ++ truthyDeltaPayloads pre := by
  induction pre generalizing s with
  | nil => simp [truthyDeltaPayloads]
  | cons e t ih =>
    simp [List.foldl_cons, ih, stepPlain_chunks, truthyDeltaPayloads_cons,
      List.append_assoc]

theorem catStrings_append (l₁ l₂ : List String) :
    catStrings (l₁ ++ l₂) = catStrings l₁ ++ catStrings l₂ := by
  induction l₁ with
  | nil => simp [catStrings]
  | cons x t ih => simp [catStrings, ih, String.append_assoc]

theorem foldl_stepPlain_fullResponse (pre : List StreamEvent) (s : LoopState) :
    (pre.foldl stepPlain s).fullResponse =
      s.fullResponse ++ catStrings (truthyDeltaPayloads pre) := by
  induction pre generalizing s with
  | nil => simp [truthyDeltaPayloads, catStrings]
  | cons e t ih =>
    rw [List.foldl_cons, ih, truthyDeltaPayloads_cons, catStrings_append,
      stepPlain_fullResponse]
    by_cases h : e.isTruthyDelta <;>
      simp [h, catStrings, String.append_assoc]

theorem foldl_stepPlain_responseId (pre : List StreamEvent) (s : LoopState) :
    (pre.foldl stepPlain s).responseId = ridAfter pre s.responseId := by
  induction pre generalizing s with
  | nil => rfl
  | cons e t ih =>
    rw [List.foldl_cons, ih, stepPlain_responseId]
    simp only [ridAfter, List.foldl_cons]

theorem ridAfter_empty_of_all_empty {evs : List StreamEvent}
    (h : ∀ e ∈ evs, e.type = "response.created" → e.response_id.getD "" = "") :
    ridAfter evs "" = "" := by
  induction evs with
  | nil => rfl
  | cons e t ih =>
    rw [ridAfter, List.foldl_cons]
    by_cases he : e.type == "response.created"
    · have ht : e.type = "response.created" := by simpa using he
      have : e.response_id.getD "" = "" := h e (List.mem_cons_self _ _) ht
      simp only [he, if_true, this]
      exact ih fun x hx => h x (List.mem_cons_of_mem _ hx)
    · simp only [he, if_false]
      exact ih fun x hx => h x (List.mem_cons_of_mem _ hx)

theorem runLoop_cons_plain {e : StreamEvent} (rest : List StreamEvent)
    (s : LoopState) (h : e.isPlain = true) :
    runLoop (e :: rest) s = runLoop rest (stepPlain s e) := by
  have hd : e.isDone = false := by
    cases hb : e.isDone <;> simp [StreamEvent.isPlain, hb] at h ⊢
  have he : e.isErr = false := by
    cases hb : e.isErr <;> simp [StreamEvent.isPlain, hb] at h ⊢
  simp [runLoop, hd, he]

theorem runLoop_append_plain {pre : List StreamEvent}
    (tail : List StreamEvent) (s : LoopState)
    (h : ∀ e ∈ pre, e.isPlain = true) :
    runLoop (pre ++ tail) s = runLoop tail (pre.foldl stepPlain s) := by
  induction pre generalizing s with
  | nil => rfl
  | cons e t ih =>
    rw [List.cons_append, runLoop_cons_plain _ _ (h e (List.mem_cons_self _ _)),
      List.foldl_cons]
    exact ih _ fun x hx => h x (List.mem_cons_of_mem _ hx)

theorem runLoop_all_plain {evs : List StreamEvent} (s : LoopState)
    (h : ∀ e ∈ evs, e.isPlain = true) :
    runLoop evs s = (evs.foldl stepPlain s, .ranOut) := by
  have h0 := runLoop_append_plain [] s h
  simpa [runLoop] using h0

theorem stepPlain_of_done {s : LoopState} {d : StreamEvent}
    (hd : d.isDone = true) : stepPlain s d = s := by
  have ht : d.type = "response.output_text.done" := by
    simpa [StreamEvent.isDone] using hd
  simp [stepPlain, stepCreated, stepDelta, StreamEvent.isTruthyDelta, ht]

theorem runLoop_plain_then_done {pre : List StreamEvent} {d : StreamEvent}
    (rest : List StreamEvent) (s : LoopState)
    (h : ∀ e ∈ pre, e.isPlain = true) (hd : d.isDone = true) :
    runLoop (pre ++ d :: rest) s =
      ({ pre.foldl stepPlain s with channel := .closed }, .closedAtDone) := by
  rw [runLoop_append_plain _ _ h, runLoop, stepPlain_of_done hd]
  simp [hd]

theorem catStrings_truthy_eq_all (evs : List StreamEvent) :
    catStrings (truthyDeltaPayloads evs) = catStrings (deltaPayloads evs) := by
  induction evs with
  | nil => rfl
  | cons e t ih =>
    unfold truthyDeltaPayloads deltaPayloads at *
    by_cases hty : e.type == "response.output_text.delta"
    · cases hdel : e.delta with
      | none =>
        simp [List.filter_cons, StreamEvent.isTruthyDelta, hty, hdel, ih]
      | some d =>
        by_cases hne : d == ""
        · have hd : d = "" := by simpa using hne
          simp [List.filter_cons, StreamEvent.isTruthyDelta, hty, hdel, hd,
            catStrings, ih]
        · have : (d != "") = true := by simp_all
          simp [List.filter_cons, StreamEvent.isTruthyDelta, hty, hdel, this,
            catStrings, ih]
    · simp [List.filter_cons, StreamEvent.isTruthyDelta, hty, ih]

/-! ### Handler path lemmas -/

theorem parseLang_ne_empty {s : String} {lang : TargetLang}
    (h : parseLang s = some lang) : s ≠ "" := by
  intro he
  subst he
  simp [parseLang] at h

theorem jsInLangName_of_parseLang {s : String} {lang : TargetLang}
    (h : parseLang s = some lang) : jsInLangName s = true := by
  simp [jsInLangName, h]

theorem jsInLangName_ne_empty {s : String} (h : jsInLangName s = true) :
    s ≠ "" := by
  intro he
  subst he
  exact absurd h (by decide)

theorem sentRequestJs_parseLang {req : MessageRequest} {conv : Conversation}
    {lang : TargetLang} (h : parseLang req.targetLang = some lang) :
    sentRequestJs req conv = sentRequest lang req conv := by
  simp [sentRequestJs, sentRequest, mkUpstreamRequest,
    getLanguageInstructionsJs, langNameJs, h]

theorem handleMessageJs_invalid {apiKey : String} {st : Store}
    {req : MessageRequest} {upstream : UpstreamRequest → SyncUpstreamResult}
    (h : req.sessionId = "" ∨ req.message = "" ∨
      jsInLangName req.targetLang = false) :
    handleMessage apiKey st req upstream = ⟨st, .invalidRequest, none⟩ := by
  unfold handleMessage
  rcases h with h | h | h <;> simp [h]

theorem handleMessageJs_notFound {apiKey : String} {st : Store}
    {req : MessageRequest} {upstream : UpstreamRequest → SyncUpstreamResult}
    (hs : req.sessionId ≠ "") (hm : req.message ≠ "")
    (hin : jsInLangName req.targetLang = true) (hk : apiKey ≠ "")
    (hc : Store.find? st req.sessionId = none) :
    handleMessage apiKey st req upstream = ⟨st, .notFound, none⟩ := by
  unfold handleMessage
  simp [hs, hm, jsInLangName_ne_empty hin, hin, hk, hc]

theorem handleMessageJs_missingKey {apiKey : String} {st : Store}
    {req : MessageRequest} {upstream : UpstreamRequest → SyncUpstreamResult}
    (hs : req.sessionId ≠ "") (hm : req.message ≠ "")
    (hin : jsInLangName req.targetLang = true) (hk : apiKey = "") :
    handleMessage apiKey st req upstream = ⟨st, .missingKey, none⟩ := by
  unfold handleMessage
  simp [hs, hm, jsInLangName_ne_empty hin, hin, hk]

theorem handleMessageJs_failurePath {apiKey : String} {st : Store}
    {req : MessageRequest} {upstream : UpstreamRequest → SyncUpstreamResult}
    {conv : Conversation}
    (hs : req.sessionId ≠ "") (hm : req.message ≠ "")
    (hin : jsInLangName req.targetLang = true) (hk : apiKey ≠ "")
    (hc : Store.find? st req.sessionId = some conv)
    (hu : upstream (sentRequestJs req conv) = .failure) :
    handleMessage apiKey st req upstream =
      ⟨Store.set st req.sessionId (appendUser conv req.message),
        .upstreamError, some (sentRequestJs req conv)⟩ := by
  unfold handleMessage
  simp [hs, hm, jsInLangName_ne_empty hin, hin, hk, hc, hu]

theorem handleMessageJs_successPath {apiKey : String} {st : Store}
    {req : MessageRequest} {upstream : UpstreamRequest → SyncUpstreamResult}
    {conv : Conversation} {id out : String}
    (hs : req.sessionId ≠ "") (hm : req.message ≠ "")
    (hin : jsInLangName req.targetLang = true) (hk : apiKey ≠ "")
    (hc : Store.find? st req.sessionId = some conv)
    (hu : upstream (sentRequestJs req conv) = .success id out) :
    handleMessage apiKey st req upstream =
      ⟨Store.set st req.sessionId
          (commitSync (appendUser conv req.message) id out),
        .ok (jsTrim out) id, some (sentRequestJs req conv)⟩ := by
  unfold handleMessage
  simp [hs, hm, jsInLangName_ne_empty hin, hin, hk, hc, hu]

theorem handleMessage_failurePath {apiKey : String} {st : Store}
    {req : MessageRequest} {upstream : UpstreamRequest → SyncUpstreamResult}
    {lang : TargetLang} {conv : Conversation}
    (hs : req.sessionId ≠ "") (hm : req.message ≠ "")
    (hl : parseLang req.targetLang = some lang) (hk : apiKey ≠ "")
    (hc : Store.find? st req.sessionId = some conv)
    (hu : upstream (sentRequest lang req conv) = .failure) :
    handleMessage apiKey st req upstream =
      ⟨Store.set st req.sessionId (appendUser conv req.message),
        .upstreamError, some (sentRequest lang req conv)⟩ := by
  have hu2 : upstream (sentRequestJs req conv) = .failure := by
    rw [sentRequestJs_parseLang hl]; exact hu
  rw [handleMessageJs_failurePath hs hm (jsInLangName_of_parseLang hl) hk hc hu2,
    sentRequestJs_parseLang hl]

theorem handleMessage_successPath {apiKey : String} {st : Store}
    {req : MessageRequest} {upstream : UpstreamRequest → SyncUpstreamResult}
    {lang : TargetLang} {conv : Conversation} {id out : String}
    (hs : req.sessionId ≠ "") (hm : req.message ≠ "")
    (hl : parseLang req.targetLang = some lang) (hk : apiKey ≠ "")
    (hc : Store.find? st req.sessionId = some conv)
    (hu : upstream (sentRequest lang req conv) = .success id out) :
    handleMessage apiKey st req upstream =
      ⟨Store.set st req.sessionId
          (commitSync (appendUser conv req.message) id out),
        .ok (jsTrim out) id, some (sentRequest lang req conv)⟩ := by
  have hu2 : upstream (sentRequestJs req conv) = .success id out := by
    rw [sentRequestJs_parseLang hl]; exact hu
  rw [handleMessageJs_successPath hs hm (jsInLangName_of_parseLang hl) hk hc hu2,
    sentRequestJs_parseLang hl]

theorem handleStreamMessageJs_invalid {apiKey : String} {st : Store}
    {req : MessageRequest}
    {upstream : UpstreamRequest → Option (List StreamEvent × Bool)}
    (h : req.sessionId = "" ∨ req.message = "" ∨
      jsInLangName req.targetLang = false) :
    handleStreamMessage apiKey st req upstream =
      ⟨st, .invalidRequest, none⟩ := by
  unfold handleStreamMessage
  rcases h with h | h | h <;> simp [h]

theorem handleStreamMessageJs_notFound {apiKey : String} {st : Store}
    {req : MessageRequest}
    {upstream : UpstreamRequest → Option (List StreamEvent × Bool)}
    (hs : req.sessionId ≠ "") (hm : req.message ≠ "")
    (hin : jsInLangName req.targetLang = true) (hk : apiKey ≠ "")
    (hc : Store.find? st req.sessionId = none) :
    handleStreamMessage apiKey st req upstream = ⟨st, .notFound, none⟩ := by
  unfold handleStreamMessage
  simp [hs, hm, jsInLangName_ne_empty hin, hin, hk, hc]

theorem handleStreamMessageJs_missingKey {apiKey : String} {st : Store}
    {req : MessageRequest}
    {upstream : UpstreamRequest → Option (List StreamEvent × Bool)}
    (hs : req.sessionId ≠ "") (hm : req.message ≠ "")
    (hin : jsInLangName req.targetLang = true) (hk : apiKey = "") :
    handleStreamMessage apiKey st req upstream = ⟨st, .missingKey, none⟩ := by
  unfold handleStreamMessage
  simp [hs, hm, jsInLangName_ne_empty hin, hin, hk]

theorem handleStreamMessageJs_valid {apiKey : String} {st : Store}
    {req : MessageRequest}
    {upstream : UpstreamRequest → Option (List StreamEvent × Bool)}
    {conv : Conversation}
    (hs : req.sessionId ≠ "") (hm : req.message ≠ "")
    (hin : jsInLangName req.targetLang = true) (hk : apiKey ≠ "")
    (hc : Store.find? st req.sessionId = some conv) :
    handleStreamMessage apiKey st req upstream =
      (match upstream (sentRequestJs req conv) with
      | none =>
        ⟨Store.set st req.sessionId (appendUser conv req.message),
          .streamed [] .errored, some (sentRequestJs req conv)⟩
      | some (evs, throwsAtEnd) =>
        match runLoop evs initLoopState with
        | (s, .closedAtDone) =>
          ⟨(if s.responseId == "" then
              Store.set st req.sessionId (appendUser conv req.message)
            else
              Store.set st req.sessionId
                (commitStream (appendUser conv req.message) s)),
            .streamed s.chunks .closed, some (sentRequestJs req conv)⟩
        | (s, .erroredOut) =>
          ⟨Store.set st req.sessionId (appendUser conv req.message),
            .streamed s.chunks .errored, some (sentRequestJs req conv)⟩
        | (s, .ranOut) =>
          if throwsAtEnd then
            ⟨Store.set st req.sessionId (appendUser conv req.message),
              .streamed s.chunks .errored, some (sentRequestJs req conv)⟩
          else
            ⟨(if s.responseId == "" then
                Store.set st req.sessionId (appendUser conv req.message)
              else
                Store.set st req.sessionId
                  (commitStream (appendUser conv req.message) s)),
              .streamed s.chunks s.channel,
              some (sentRequestJs req conv)⟩) := by
  unfold handleStreamMessage
  simp [hs, hm, jsInLangName_ne_empty hin, hin, hk, hc]

theorem handleStreamMessage_valid {apiKey : String} {st : Store}
    {req : MessageRequest}
    {upstream : UpstreamRequest → Option (List StreamEvent × Bool)}
    {lang : TargetLang} {conv : Conversation}
    (hs : req.sessionId ≠ "") (hm : req.message ≠ "")
    (hl : parseLang req.targetLang = some lang) (hk : apiKey ≠ "")
    (hc : Store.find? st req.sessionId = some conv) :
    handleStreamMessage apiKey st req upstream =
      (match upstream (sentRequest lang req conv) with
      | none =>
        ⟨Store.set st req.sessionId (appendUser conv req.message),
          .streamed [] .errored, some (sentRequest lang req conv)⟩
      | some (evs, throwsAtEnd) =>
        match runLoop evs initLoopState with
        | (s, .closedAtDone) =>
          ⟨(if s.responseId == "" then
              Store.set st req.sessionId (appendUser conv req.message)
            else
              Store.set st req.sessionId
                (commitStream (appendUser conv req.message) s)),
            .streamed s.chunks .closed, some (sentRequest lang req conv)⟩
        | (s, .erroredOut) =>
          ⟨Store.set st req.sessionId (appendUser conv req.message),
            .streamed s.chunks .errored, some (sentRequest lang req conv)⟩
        | (s, .ranOut) =>
          if throwsAtEnd then
            ⟨Store.set st req.sessionId (appendUser conv req.message),
              .streamed s.chunks .errored, some (sentRequest lang req conv)⟩
          else
            ⟨(if s.responseId == "" then
                Store.set st req.sessionId (appendUser conv req.message)
              else
                Store.set st req.sessionId
                  (commitStream (appendUser conv req.message) s)),
              .streamed s.chunks s.channel,
              some (sentRequest lang req conv)⟩) := by
  rw [handleStreamMessageJs_valid hs hm (jsInLangName_of_parseLang hl) hk hc,
    sentRequestJs_parseLang hl]

/-! ### Invariant preservation through the handlers -/

theorem handleMessage_preservesInv (apiKey : String) (st : Store)
    (req : MessageRequest) (upstream : UpstreamRequest → SyncUpstreamResult)
    (h : storeInv st) : storeInv (handleMessage apiKey st req upstream).store := by
  by_cases hs : req.sessionId = ""
  · rw [handleMessageJs_invalid (Or.inl hs)]; exact h
  by_cases hm : req.message = ""
  · rw [handleMessageJs_invalid (Or.inr (Or.inl hm))]; exact h
  by_cases hin : jsInLangName req.targetLang = true
  case neg =>
    rw [handleMessageJs_invalid (Or.inr (Or.inr (by simpa using hin)))]; exact h
  by_cases hk : apiKey = ""
  · rw [handleMessageJs_missingKey hs hm hin hk]; exact h
  cases hc : Store.find? st req.sessionId with
  | none => rw [handleMessageJs_notFound hs hm hin hk hc]; exact h
  | some conv =>
    cases hu : upstream (sentRequestJs req conv) with
    | failure =>
      rw [handleMessageJs_failurePath hs hm hin hk hc hu]
      exact storeInv_set h (convInv_appendUser (storeInv_find? h hc) _)
    | success id out =>
      rw [handleMessageJs_successPath hs hm hin hk hc hu]
      exact storeInv_set h
        (convInv_commitSync (convInv_appendUser (storeInv_find? h hc) _) _ _)

theorem handleStreamMessage_preservesInv (apiKey : String) (st : Store)
    (req : MessageRequest)
    (upstream : UpstreamRequest → Option (List StreamEvent × Bool))
    (h : storeInv st) :
    storeInv (handleStreamMessage apiKey st req upstream).store := by
  by_cases hs : req.sessionId = ""
  · rw [handleStreamMessageJs_invalid (Or.inl hs)]; exact h
  by_cases hm : req.message = ""
  · rw [handleStreamMessageJs_invalid (Or.inr (Or.inl hm))]; exact h
  by_cases hin : jsInLangName req.targetLang = true
  case neg =>
    rw [handleStreamMessageJs_invalid (Or.inr (Or.inr (by simpa using hin)))]; exact h
  by_cases hk : apiKey = ""
  · rw [handleStreamMessageJs_missingKey hs hm hin hk]; exact h
  cases hc : Store.find? st req.sessionId with
  | none => rw [handleStreamMessageJs_notFound hs hm hin hk hc]; exact h
  | some conv =>
    rw [handleStreamMessageJs_valid hs hm hin hk hc]
    have h1 : convInv (appendUser conv req.message) :=
      convInv_appendUser (storeInv_find? h hc) _
    cases hu : upstream (sentRequestJs req conv) with
    | none => dsimp only; exact storeInv_set h h1
    | some p =>
      obtain ⟨evs, throwsAtEnd⟩ := p
      dsimp only
      rcases hr : runLoop evs initLoopState with ⟨s, ek⟩
      cases ek with
      | closedAtDone =>
        dsimp only
        by_cases hrid : (s.responseId == "") = true
        · simp only [hrid, if_true]
          exact storeInv_set h h1
        · simp only [hrid, if_false]
          exact storeInv_set h (convInv_commitStream h1 s)
      | erroredOut => dsimp only; exact storeInv_set h h1
      | ranOut =>
        dsimp only
        cases throwsAtEnd with
        | true => simp only [if_true]; exact storeInv_set h h1
        | false =>
          simp only [Bool.false_eq_true, if_false]
          by_cases hrid : (s.responseId == "") = true
          · simp only [hrid, if_true]
            exact storeInv_set h h1
          · simp only [hrid, if_false]
            exact storeInv_set h (convInv_commitStream h1 s)

/-! ### Session-identifier lemmas -/

theorem takeWhile_until_sep (l m : List Char) (h : ('_' : Char) ∉ l) :
    (l ++ '_' :: m).takeWhile (fun c => c != '_') = l := by
  induction l with
  | nil => simp
  | cons a t ih =>
    have ha : a ≠ '_' := by
      intro he
      exact h (by simp [he])
    have h2 : ('_' : Char) ∉ t := fun hm => h (List.mem_cons_of_mem _ hm)
    simp [List.takeWhile_cons, ha, ih h2]

theorem sep_split_right {a₁ b₁ a₂ b₂ : List Char}
    (h : a₁ ++ '_' :: b₁ = a₂ ++ '_' :: b₂)
    (h₁ : ('_' : Char) ∉ b₁) (h₂ : ('_' : Char) ∉ b₂) : b₁ = b₂ := by
  have key : b₁.reverse ++ '_' :: a₁.reverse = b₂.reverse ++ '_' :: a₂.reverse := by
    have hr := congrArg List.reverse h
    simpa [List.reverse_append, List.append_assoc] using hr
  have ht := congrArg (List.takeWhile (fun c => c != '_')) key
  rw [takeWhile_until_sep _ _ (by simpa using h₁),
    takeWhile_until_sep _ _ (by simpa using h₂)] at ht
  exact List.reverse_injective ht

theorem string_data_inj {s t : String} (h : s.data = t.data) : s = t := by
  cases s; cases t; exact congrArg String.mk h

theorem string_data_append (s t : String) : (s ++ t).data = s.data ++ t.data := by
  cases s; cases t; rfl

theorem mkSessionId_data (n : Nat) (r : String) :
    (mkSessionId n r).data =
      ("session_".data ++ (Nat.repr n).data) ++ '_' :: r.data := by
  show ((("session_" ++ Nat.repr n) ++ "_") ++ r).data = _
  rw [string_data_append, string_data_append, string_data_append,
    List.append_assoc, List.append_assoc]
  rfl

theorem mkSessionId_rand_inj {n₁ n₂ : Nat} {r₁ r₂ : String}
    (h₁ : ('_' : Char) ∉ r₁.data) (h₂ : ('_' : Char) ∉ r₂.data)
    (h : mkSessionId n₁ r₁ = mkSessionId n₂ r₂) : r₁ = r₂ := by
  have hd := congrArg String.data h
  rw [mkSessionId_data, mkSessionId_data] at hd
  have hd2 : ("session_".data ++ (Nat.repr n₁).data) ++ '_' :: r₁.data =
      ("session_".data ++ (Nat.repr n₂).data) ++ '_' :: r₂.data := hd
  exact string_data_inj (sep_split_right hd2 h₁ h₂)

theorem runCreates_ids (draws : List (Nat × String)) (st : Store) :
    (runCreates draws st).2 = draws.map fun d => mkSessionId d.1 d.2 := by
  induction draws generalizing st with
  | nil => rfl
  | cons d ds ih =>
    simp [runCreates, handleStartConversation, ih]

/-! ### Support lemmas for the claim theorems -/

theorem Store.find?_set_self (st : Store) (sid : String) (c : Conversation) :
    Store.find? (Store.set st sid c) sid = some c := by
  induction st with
  | nil => simp [Store.set, Store.find?]
  | cons p rest ih =>
    obtain ⟨k, v⟩ := p
    by_cases hk : (k == sid) = true
    · simp [Store.set, hk, Store.find?]
    · simp [Store.set, hk, Store.find?, ih]

theorem lastTokenOrNull_appendUser (c : Conversation) (m : String) :
    lastTokenOrNull (appendUser c m) = lastTokenOrNull c := rfl

theorem lastTokenOrNull_of_getLast? {conv : Conversation} {t : String}
    (h : conv.responseIds.getLast? = some t) (ht : t ≠ "") :
    lastTokenOrNull conv = some t := by
  simp [lastTokenOrNull, h, ht]

theorem lastTokenOrNull_of_nil {conv : Conversation}
    (h : conv.responseIds = []) : lastTokenOrNull conv = none := by
  simp [lastTokenOrNull, h]

theorem sentRequest_previous (lang : TargetLang) (req : MessageRequest)
    (conv : Conversation) :
    (sentRequest lang req conv).previous_response_id = lastTokenOrNull conv := rfl

theorem commitSync_appendUser (conv : Conversation) (m id out : String) :
    commitSync (appendUser conv m) id out =
      ⟨conv.responseIds ++ [id],
        conv.messages ++ [⟨.user, m⟩, ⟨.assistant, jsTrim out⟩]⟩ := by
  simp [commitSync, appendUser]

theorem commitStream_appendUser (conv : Conversation) (m : String)
    (s : LoopState) :
    commitStream (appendUser conv m) s =
      ⟨conv.responseIds ++ [s.responseId],
        conv.messages ++ [⟨.user, m⟩, ⟨.assistant, s.fullResponse⟩]⟩ := by
  simp [commitStream, appendUser]

theorem handleMessage_upstreamCall {apiKey : String} {st : Store}
    {req : MessageRequest} {upstream : UpstreamRequest → SyncUpstreamResult}
    {lang : TargetLang} {conv : Conversation}
    (hs : req.sessionId ≠ "") (hm : req.message ≠ "")
    (hl : parseLang req.targetLang = some lang) (hk : apiKey ≠ "")
    (hc : Store.find? st req.sessionId = some conv) :
    (handleMessage apiKey st req upstream).upstreamCall =
      some (sentRequest lang req conv) := by
  cases hu : upstream (sentRequest lang req conv) with
  | failure => rw [handleMessage_failurePath hs hm hl hk hc hu]
  | success id out => rw [handleMessage_successPath hs hm hl hk hc hu]

theorem handleStreamMessage_upstreamCall {apiKey : String} {st : Store}
    {req : MessageRequest}
    {upstream : UpstreamRequest → Option (List StreamEvent × Bool)}
    {lang : TargetLang} {conv : Conversation}
    (hs : req.sessionId ≠ "") (hm : req.message ≠ "")
    (hl : parseLang req.targetLang = some lang) (hk : apiKey ≠ "")
    (hc : Store.find? st req.sessionId = some conv) :
    (handleStreamMessage apiKey st req upstream).upstreamCall =
      some (sentRequest lang req conv) := by
  rw [handleStreamMessage_valid hs hm hl hk hc]
  cases hu : upstream (sentRequest lang req conv) with
  | none => rfl
  | some p =>
    obtain ⟨evs, throwsAtEnd⟩ := p
    dsimp only
    rcases hr : runLoop evs initLoopState with ⟨s, ek⟩
    cases ek with
    | closedAtDone => rfl
    | erroredOut => rfl
    | ranOut => cases throwsAtEnd <;> rfl

theorem handleMessageJs_upstreamCall {apiKey : String} {st : Store}
    {req : MessageRequest} {upstream : UpstreamRequest → SyncUpstreamResult}
    {conv : Conversation}
    (hs : req.sessionId ≠ "") (hm : req.message ≠ "")
    (hin : jsInLangName req.targetLang = true) (hk : apiKey ≠ "")
    (hc : Store.find? st req.sessionId = some conv) :
    (handleMessage apiKey st req upstream).upstreamCall =
      some (sentRequestJs req conv) := by
  cases hu : upstream (sentRequestJs req conv) with
  | failure => rw [handleMessageJs_failurePath hs hm hin hk hc hu]
  | success id out => rw [handleMessageJs_successPath hs hm hin hk hc hu]

theorem handleStreamMessageJs_upstreamCall {apiKey : String} {st : Store}
    {req : MessageRequest}
    {upstream : UpstreamRequest → Option (List StreamEvent × Bool)}
    {conv : Conversation}
    (hs : req.sessionId ≠ "") (hm : req.message ≠ "")
    (hin : jsInLangName req.targetLang = true) (hk : apiKey ≠ "")
    (hc : Store.find? st req.sessionId = some conv) :
    (handleStreamMessage apiKey st req upstream).upstreamCall =
      some (sentRequestJs req conv) := by
  rw [handleStreamMessageJs_valid hs hm hin hk hc]
  cases hu : upstream (sentRequestJs req conv) with
  | none => rfl
  | some p =>
    obtain ⟨evs, throwsAtEnd⟩ := p
    dsimp only
    rcases hr : runLoop evs initLoopState with ⟨s, ek⟩
    cases ek with
    | closedAtDone => rfl
    | erroredOut => rfl
    | ranOut => cases throwsAtEnd <;> rfl

/-! ### Claim theorems -/

/-- Claim C3: for every sync relay call whose preconditions hold (non-empty
session id and message, supported language, configured credential, existing
session) and whose upstream call succeeds returning `id` and `output_text`,
the response to the caller is `{message: trimmed output text, responseId:
id}`, the session gains exactly one new user turn and one new assistant
turn, and the last continuation token equals the `responseId` returned. -/
theorem claim_C3_sync_success (apiKey : String) (st : Store)
    (req : MessageRequest) (upstream : UpstreamRequest → SyncUpstreamResult)
    (lang : TargetLang) (conv : Conversation) (id out : String)
    (hs : req.sessionId ≠ "") (hm : req.message ≠ "")
    (hl : parseLang req.targetLang = some lang) (hk : apiKey ≠ "")
    (hc : Store.find? st req.sessionId = some conv)
    (hu : upstream (sentRequest lang req conv) = .success id out) :
    (handleMessage apiKey st req upstream).result = .ok (jsTrim out) id ∧
    Store.find? (handleMessage apiKey st req upstream).store req.sessionId =
      some ⟨conv.responseIds ++ [id],
        conv.messages ++ [⟨.user, req.message⟩, ⟨.assistant, jsTrim out⟩]⟩ ∧
    (conv.responseIds ++ [id]).getLast? = some id := by
  rw [handleMessage_successPath hs hm hl hk hc hu]
  refine ⟨rfl, ?_, by simp⟩
  rw [Store.find?_set_self, commitSync_appendUser]

/-- Witness for C3 at the spec scenario: fresh session, message `Hello`,
target language `fr`, upstream success `{id: r1, output_text: Bonjour}`. -/
theorem claim_C3_sync_success_witness :
    (handleMessage "k" [("s", ⟨[], []⟩)] ⟨"s", "Hello", "fr"⟩
        (fun _ => .success "r1" "Bonjour")).result =
      .ok (jsTrim "Bonjour") "r1" ∧
    Store.find? (handleMessage "k" [("s", ⟨[], []⟩)] ⟨"s", "Hello", "fr"⟩
        (fun _ => .success "r1" "Bonjour")).store "s" =
      some ⟨[] ++ ["r1"],
        [] ++ [⟨.user, "Hello"⟩, ⟨.assistant, jsTrim "Bonjour"⟩]⟩ ∧
    (([] : List String) ++ ["r1"]).getLast? = some "r1" :=
  claim_C3_sync_success "k" [("s", ⟨[], []⟩)] ⟨"s", "Hello", "fr"⟩
    (fun _ => .success "r1" "Bonjour") .fr ⟨[], []⟩ "r1" "Bonjour"
    (by decide) (by decide) (by decide) (by decide) (by decide) rfl

/-- Claim C5: for every sync relay call that passes validation but whose
upstream completion call fails, the session afterwards contains the appended
user turn and nothing else new: the message list gained only the user turn
and the token list is unchanged. -/
theorem claim_C5_sync_failure (apiKey : String) (st : Store)
    (req : MessageRequest) (upstream : UpstreamRequest → SyncUpstreamResult)
    (lang : TargetLang) (conv : Conversation)
    (hs : req.sessionId ≠ "") (hm : req.message ≠ "")
    (hl : parseLang req.targetLang = some lang) (hk : apiKey ≠ "")
    (hc : Store.find? st req.sessionId = some conv)
    (hu : upstream (sentRequest lang req conv) = .failure) :
    (handleMessage apiKey st req upstream).result = .upstreamError ∧
    Store.find? (handleMessage apiKey st req upstream).store req.sessionId =
      some ⟨conv.responseIds,
        conv.messages ++ [⟨.user, req.message⟩]⟩ := by
  rw [handleMessage_failurePath hs hm hl hk hc hu]
  exact ⟨rfl, by rw [Store.find?_set_self]; rfl⟩

/-- Witness for C5: failing upstream leaves the user turn recorded with no
paired reply and no new token. -/
theorem claim_C5_sync_failure_witness :
    (handleMessage "k" [("s", ⟨["r0"], [⟨.user, "a"⟩, ⟨.assistant, "b"⟩]⟩)]
        ⟨"s", "Hello", "fr"⟩ (fun _ => .failure)).result = .upstreamError ∧
    Store.find? (handleMessage "k"
        [("s", ⟨["r0"], [⟨.user, "a"⟩, ⟨.assistant, "b"⟩]⟩)]
        ⟨"s", "Hello", "fr"⟩ (fun _ => .failure)).store "s" =
      some ⟨["r0"], [⟨.user, "a"⟩, ⟨.assistant, "b"⟩] ++ [⟨.user, "Hello"⟩]⟩ :=
  claim_C5_sync_failure "k" [("s", ⟨["r0"], [⟨.user, "a"⟩, ⟨.assistant, "b"⟩]⟩)]
    ⟨"s", "Hello", "fr"⟩ (fun _ => .failure) .fr
    ⟨["r0"], [⟨.user, "a"⟩, ⟨.assistant, "b"⟩]⟩
    (by decide) (by decide) (by decide) (by decide) (by decide) rfl

/-- Counterexample to claim C4 as stated, in two parts.  First, the runtime
membership test is `targetLang in langName`, and JavaScript `in` consults
the prototype chain: `targetLang = "toString"` is not a supported code
(`parseLang` returns `none`) yet passes validation, so the call does not
fail with 400 — it mutates the session and issues an upstream call.
Second, a call whose session id does not resolve fails with
`ConfigurationError/500` — not `NotFound/404` — when the upstream credential
is missing, because the credential check precedes the session lookup. -/
theorem claim_C4_counterexample :
    parseLang "toString" = none ∧
    jsInLangName "toString" = true ∧
    (handleMessage "k" [("s", ⟨[], []⟩)] ⟨"s", "Hello", "toString"⟩
        (fun _ => .success "r1" "ok")).result = .ok "ok" "r1" ∧
    (handleMessage "k" [("s", ⟨[], []⟩)] ⟨"s", "Hello", "toString"⟩
        (fun _ => .success "r1" "ok")).upstreamCall ≠ none ∧
    Store.find? (handleMessage "k" [("s", ⟨[], []⟩)]
        ⟨"s", "Hello", "toString"⟩
        (fun _ => .success "r1" "ok")).store "s" ≠ some ⟨[], []⟩ ∧
    (handleMessage "" [] ⟨"nosuch", "Hello", "fr"⟩
        (fun _ => .failure)).result = .missingKey := by
  refine ⟨by decide, by decide, by decide, by decide, by decide, by decide⟩

/-- Claim C4 (amended): a relay call (sync or streaming) with a missing
field, or whose `targetLang` fails the runtime membership test
`targetLang in langName` (it is neither a supported code nor an inherited
`Object.prototype` property name), fails with `InvalidRequest/400` with the
store unchanged and no upstream call; with the credential configured, a call
whose session id does not resolve fails with `NotFound/404`, and with the
credential missing it fails with `ConfigurationError/500`, in both cases
likewise without mutation or upstream call.  However, a `targetLang` that is
an inherited `Object.prototype` property name (e.g. `"toString"`) passes
validation despite being unsupported: the upstream call is issued, and the
user turn is appended to the session even when upstream fails. -/
theorem claim_C4_amended (apiKey : String) (st : Store) (req : MessageRequest)
    (upSync : UpstreamRequest → SyncUpstreamResult)
    (upStream : UpstreamRequest → Option (List StreamEvent × Bool)) :
    (req.sessionId = "" ∨ req.message = "" ∨
        jsInLangName req.targetLang = false →
      handleMessage apiKey st req upSync = ⟨st, .invalidRequest, none⟩ ∧
      handleStreamMessage apiKey st req upStream =
        ⟨st, .invalidRequest, none⟩) ∧
    (apiKey ≠ "" → req.sessionId ≠ "" → req.message ≠ "" →
      jsInLangName req.targetLang = true →
      Store.find? st req.sessionId = none →
      handleMessage apiKey st req upSync = ⟨st, .notFound, none⟩ ∧
      handleStreamMessage apiKey st req upStream = ⟨st, .notFound, none⟩) ∧
    (apiKey = "" → req.sessionId ≠ "" → req.message ≠ "" →
      jsInLangName req.targetLang = true →
      handleMessage apiKey st req upSync = ⟨st, .missingKey, none⟩ ∧
      handleStreamMessage apiKey st req upStream = ⟨st, .missingKey, none⟩) ∧
    (apiKey ≠ "" → req.sessionId ≠ "" → req.message ≠ "" →
      jsInLangName req.targetLang = true → parseLang req.targetLang = none →
      ∀ conv, Store.find? st req.sessionId = some conv →
      (handleMessage apiKey st req upSync).upstreamCall =
        some (sentRequestJs req conv) ∧
      (handleStreamMessage apiKey st req upStream).upstreamCall =
        some (sentRequestJs req conv) ∧
      (upSync (sentRequestJs req conv) = .failure →
        Store.find? (handleMessage apiKey st req upSync).store
            req.sessionId = some (appendUser conv req.message))) := by
  refine ⟨fun h =>
      ⟨handleMessageJs_invalid h, handleStreamMessageJs_invalid h⟩,
    fun hk hs hm hin hc =>
      ⟨handleMessageJs_notFound hs hm hin hk hc,
       handleStreamMessageJs_notFound hs hm hin hk hc⟩,
    fun hk hs hm hin =>
      ⟨handleMessageJs_missingKey hs hm hin hk,
       handleStreamMessageJs_missingKey hs hm hin hk⟩,
    fun hk hs hm hin _ conv hc =>
      ⟨handleMessageJs_upstreamCall hs hm hin hk hc,
       handleStreamMessageJs_upstreamCall hs hm hin hk hc,
       fun hfail => ?_⟩⟩
  rw [handleMessageJs_failurePath hs hm hin hk hc hfail]
  exact Store.find?_set_self st req.sessionId (appendUser conv req.message)

/-- Witness for C4: an unsupported non-prototype language (`de`) is rejected
with `InvalidRequest`; an unknown session (credential configured) is
rejected with `NotFound`; and `targetLang = "toString"` slips through
validation and reaches upstream. -/
theorem claim_C4_amended_witness :
    (handleMessage "k" [] ⟨"s", "Hi", "de"⟩ (fun _ => .failure) =
      ⟨[], .invalidRequest, none⟩ ∧
     handleStreamMessage "k" [] ⟨"s", "Hi", "de"⟩ (fun _ => none) =
      ⟨[], .invalidRequest, none⟩) ∧
    (handleMessage "k" [] ⟨"s", "Hi", "fr"⟩ (fun _ => .failure) =
      ⟨[], .notFound, none⟩ ∧
     handleStreamMessage "k" [] ⟨"s", "Hi", "fr"⟩ (fun _ => none) =
      ⟨[], .notFound, none⟩) ∧
    (handleMessage "k" [("s", ⟨[], []⟩)] ⟨"s", "Hi", "toString"⟩
        (fun _ => .failure)).upstreamCall =
      some (sentRequestJs ⟨"s", "Hi", "toString"⟩ ⟨[], []⟩) :=
  ⟨(claim_C4_amended "k" [] ⟨"s", "Hi", "de"⟩ (fun _ => .failure)
      (fun _ => none)).1 (by decide),
   (claim_C4_amended "k" [] ⟨"s", "Hi", "fr"⟩ (fun _ => .failure)
      (fun _ => none)).2.1 (by decide) (by decide) (by decide) (by decide)
      (by decide),
   ((claim_C4_amended "k" [("s", ⟨[], []⟩)] ⟨"s", "Hi", "toString"⟩
      (fun _ => .failure) (fun _ => none)).2.2.2 (by decide) (by decide)
      (by decide) (by decide) (by decide) ⟨[], []⟩ (by decide)).1⟩

/-- Counterexample to claim C1 as stated: a reachable session whose most
recent continuation token is the empty string (the sync relay pushes the
upstream id unconditionally, so an upstream success with `id = ""` produces
it) satisfies the length invariant, yet the next call passes
`previous_response_id = null` rather than that token, because of the
`|| null` collapse. -/
theorem claim_C1_counterexample :
    convInv ⟨[""], [⟨.user, "hi"⟩, ⟨.assistant, ""⟩]⟩ ∧
    (Conversation.responseIds
      ⟨[""], [⟨.user, "hi"⟩, ⟨.assistant, ""⟩]⟩).getLast? = some "" ∧
    (handleMessage "k" [("s", ⟨[""], [⟨.user, "hi"⟩, ⟨.assistant, ""⟩]⟩)]
        ⟨"s", "again", "fr"⟩ (fun _ => .success "r2" "ok")).upstreamCall.map
      UpstreamRequest.previous_response_id = some none ∧
    (some (none : Option String)) ≠ some (some "") := by
  refine ⟨by decide, by decide, by decide, by decide⟩

/-- Claim C1 (amended): the empty conversation satisfies the invariant
`len(responseIds) = number of assistant turns`, every complete run of either
relay handler preserves it for every session in the store, and the most
recent continuation token, when one exists and is non-empty, is the one
passed as `previous_response_id` on the next upstream call for that session
(an empty-string token is collapsed to `null` by the `|| null` fallback). -/
theorem claim_C1_amended :
    convInv ⟨[], []⟩ ∧
    (∀ (apiKey : String) (st : Store) (req : MessageRequest)
      (upstream : UpstreamRequest → SyncUpstreamResult), storeInv st →
      storeInv (handleMessage apiKey st req upstream).store) ∧
    (∀ (apiKey : String) (st : Store) (req : MessageRequest)
      (upstream : UpstreamRequest → Option (List StreamEvent × Bool)),
      storeInv st →
      storeInv (handleStreamMessage apiKey st req upstream).store) ∧
    (∀ (apiKey : String) (st : Store) (req : MessageRequest)
      (upstream : UpstreamRequest → SyncUpstreamResult)
      (lang : TargetLang) (conv : Conversation) (t : String),
      req.sessionId ≠ "" → req.message ≠ "" →
      parseLang req.targetLang = some lang → apiKey ≠ "" →
      Store.find? st req.sessionId = some conv →
      conv.responseIds.getLast? = some t → t ≠ "" →
      ∀ u, (handleMessage apiKey st req upstream).upstreamCall = some u →
        u.previous_response_id = some t) ∧
    (∀ (apiKey : String) (st : Store) (req : MessageRequest)
      (upstream : UpstreamRequest → Option (List StreamEvent × Bool))
      (lang : TargetLang) (conv : Conversation) (t : String),
      req.sessionId ≠ "" → req.message ≠ "" →
      parseLang req.targetLang = some lang → apiKey ≠ "" →
      Store.find? st req.sessionId = some conv →
      conv.responseIds.getLast? = some t → t ≠ "" →
      ∀ u, (handleStreamMessage apiKey st req upstream).upstreamCall = some u →
        u.previous_response_id = some t) := by
  refine ⟨by simp [convInv, assistantCount],
    handleMessage_preservesInv, handleStreamMessage_preservesInv, ?_, ?_⟩
  · intro apiKey st req upstream lang conv t hs hm hl hk hc hlast ht u hu
    rw [handleMessage_upstreamCall hs hm hl hk hc] at hu
    cases hu
    rw [sentRequest_previous]
    exact lastTokenOrNull_of_getLast? hlast ht
  · intro apiKey st req upstream lang conv t hs hm hl hk hc hlast ht u hu
    rw [handleStreamMessage_upstreamCall hs hm hl hk hc] at hu
    cases hu
    rw [sentRequest_previous]
    exact lastTokenOrNull_of_getLast? hlast ht

/-- Witness for C1: a store satisfying the invariant still satisfies it
after a sync relay run, and a session whose last token is `r1` has `r1`
passed as prior context on the next call. -/
theorem claim_C1_amended_witness :
    storeInv (handleMessage "k"
      [("s", ⟨["r1"], [⟨.user, "a"⟩, ⟨.assistant, "b"⟩]⟩)]
      ⟨"s", "Hello", "fr"⟩ (fun _ => .success "r2" "Merci")).store ∧
    (sentRequest .fr ⟨"s", "Hello", "fr"⟩
      ⟨["r1"], [⟨.user, "a"⟩, ⟨.assistant, "b"⟩]⟩).previous_response_id =
      some "r1" :=
  ⟨claim_C1_amended.2.1 "k" [("s", ⟨["r1"], [⟨.user, "a"⟩, ⟨.assistant, "b"⟩]⟩)]
      ⟨"s", "Hello", "fr"⟩ (fun _ => .success "r2" "Merci") (by decide),
   claim_C1_amended.2.2.2.1 "k"
      [("s", ⟨["r1"], [⟨.user, "a"⟩, ⟨.assistant, "b"⟩]⟩)]
      ⟨"s", "Hello", "fr"⟩ (fun _ => .success "r2" "Merci") .fr
      ⟨["r1"], [⟨.user, "a"⟩, ⟨.assistant, "b"⟩]⟩ "r1"
      (by decide) (by decide) (by decide) (by decide) (by decide)
      (by decide) (by decide)
      (sentRequest .fr ⟨"s", "Hello", "fr"⟩
        ⟨["r1"], [⟨.user, "a"⟩, ⟨.assistant, "b"⟩]⟩)
      (handleMessage_upstreamCall (by decide) (by decide) (by decide)
        (by decide) (by decide))⟩

/-- Counterexample to claim C7 as stated: on a session whose last
continuation token is the empty string the streaming relay passes
`previous_response_id = null`, not that token, because of the `|| null`
collapse; such a session is reachable via a sync success with an empty
upstream id. -/
theorem claim_C7_counterexample :
    (Conversation.responseIds
      ⟨[""], [⟨.user, "a"⟩, ⟨.assistant, ""⟩]⟩).getLast? = some "" ∧
    (handleStreamMessage "k" [("t", ⟨[""], [⟨.user, "a"⟩, ⟨.assistant, ""⟩]⟩)]
        ⟨"t", "encore", "fr"⟩ (fun _ => some ([], false))).upstreamCall.map
      UpstreamRequest.previous_response_id = some none ∧
    (some (none : Option String)) ≠ some (some "") := by
  refine ⟨by decide, by decide, by decide⟩

/-- Claim C7 (amended): every relay call (sync or streaming) that reaches
the upstream issues exactly one request whose `previous_response_id` is the
session's last continuation token as the call began — precisely, `null`
when the session has no tokens or its last token is the empty string, and
the last token itself otherwise; in particular a second message on a
session whose first relay returned `r1` sends `previous_response_id = r1`. -/
theorem claim_C7_amended (apiKey : String) (st : Store) (req : MessageRequest)
    (upSync : UpstreamRequest → SyncUpstreamResult)
    (upStream : UpstreamRequest → Option (List StreamEvent × Bool))
    (lang : TargetLang) (conv : Conversation)
    (hs : req.sessionId ≠ "") (hm : req.message ≠ "")
    (hl : parseLang req.targetLang = some lang) (hk : apiKey ≠ "")
    (hc : Store.find? st req.sessionId = some conv) :
    (handleMessage apiKey st req upSync).upstreamCall =
      some (sentRequest lang req conv) ∧
    (handleStreamMessage apiKey st req upStream).upstreamCall =
      some (sentRequest lang req conv) ∧
    (sentRequest lang req conv).previous_response_id = lastTokenOrNull conv ∧
    (conv.responseIds = [] → lastTokenOrNull conv = none) ∧
    (∀ t, conv.responseIds.getLast? = some t → t ≠ "" →
      lastTokenOrNull conv = some t) :=
  ⟨handleMessage_upstreamCall hs hm hl hk hc,
   handleStreamMessage_upstreamCall hs hm hl hk hc,
   sentRequest_previous lang req conv,
   lastTokenOrNull_of_nil,
   fun _ h ht => lastTokenOrNull_of_getLast? h ht⟩

/-- Witness for C7 at the spec scenario: the second message on a session
whose first relay returned `r1` carries `previous_response_id = r1`, and a
fresh session carries no prior context. -/
theorem claim_C7_amended_witness :
    (handleMessage "k" [("s", ⟨["r1"], [⟨.user, "a"⟩, ⟨.assistant, "b"⟩]⟩)]
        ⟨"s", "Encore", "fr"⟩ (fun _ => .success "r2" "c")).upstreamCall =
      some (sentRequest .fr ⟨"s", "Encore", "fr"⟩
        ⟨["r1"], [⟨.user, "a"⟩, ⟨.assistant, "b"⟩]⟩) ∧
    (sentRequest .fr ⟨"s", "Encore", "fr"⟩
      ⟨["r1"], [⟨.user, "a"⟩, ⟨.assistant, "b"⟩]⟩).previous_response_id =
      lastTokenOrNull ⟨["r1"], [⟨.user, "a"⟩, ⟨.assistant, "b"⟩]⟩ ∧
    lastTokenOrNull ⟨["r1"], [⟨.user, "a"⟩, ⟨.assistant, "b"⟩]⟩ = some "r1" ∧
    lastTokenOrNull ⟨[], []⟩ = none := by
  have h := claim_C7_amended "k"
    [("s", ⟨["r1"], [⟨.user, "a"⟩, ⟨.assistant, "b"⟩]⟩)]
    ⟨"s", "Encore", "fr"⟩ (fun _ => .success "r2" "c") (fun _ => none) .fr
    ⟨["r1"], [⟨.user, "a"⟩, ⟨.assistant, "b"⟩]⟩
    (by decide) (by decide) (by decide) (by decide) (by decide)
  exact ⟨h.1, h.2.2.1, h.2.2.2.2 "r1" (by decide) (by decide), by decide⟩

/-- Counterexample to claim C2 as stated: a text-delta event whose payload
is the empty string is a delta event, but the `&& event.delta` truthiness
guard skips it, so the chunks enqueued (`["Bon", "jour"]`) are not exactly
the delta payloads (`["Bon", "", "jour"]`). -/
theorem claim_C2_counterexample :
    (handleStreamMessage "k" [("s", ⟨[], []⟩)] ⟨"s", "Hello", "fr"⟩
        (fun _ => some ([⟨"response.created", none, some "r1", true, false⟩,
          ⟨"response.output_text.delta", some "Bon", none, false, false⟩,
          ⟨"response.output_text.delta", some "", none, false, false⟩,
          ⟨"response.output_text.delta", some "jour", none, false, false⟩,
          ⟨"response.output_text.done", none, none, false, false⟩],
          false))).result = .streamed ["Bon", "jour"] .closed ∧
    deltaPayloads [⟨"response.created", none, some "r1", true, false⟩,
      ⟨"response.output_text.delta", some "Bon", none, false, false⟩,
      ⟨"response.output_text.delta", some "", none, false, false⟩,
      ⟨"response.output_text.delta", some "jour", none, false, false⟩,
      ⟨"response.output_text.done", none, none, false, false⟩] =
      ["Bon", "", "jour"] ∧
    (["Bon", "jour"] : List String) ≠ ["Bon", "", "jour"] := by
  refine ⟨by decide, by decide, by decide⟩

/-- Claim C2 (amended): for every streaming relay call that reaches the
completion event, the chunks enqueued on the caller's channel are exactly
the payloads of the truthy (non-empty) text-delta events before completion,
in arrival order; their concatenation equals the concatenation of all delta
payloads, and when a response identifier was captured this concatenation is
exactly the assistant-turn text committed to the session. -/
theorem claim_C2_amended (apiKey : String) (st : Store) (req : MessageRequest)
    (upstream : UpstreamRequest → Option (List StreamEvent × Bool))
    (lang : TargetLang) (conv : Conversation)
    (pre : List StreamEvent) (d : StreamEvent) (rest : List StreamEvent)
    (throws : Bool)
    (hs : req.sessionId ≠ "") (hm : req.message ≠ "")
    (hl : parseLang req.targetLang = some lang) (hk : apiKey ≠ "")
    (hc : Store.find? st req.sessionId = some conv)
    (hp : ∀ e ∈ pre, e.isPlain = true) (hd : d.isDone = true)
    (hu : upstream (sentRequest lang req conv) =
      some (pre ++ d :: rest, throws)) :
    (handleStreamMessage apiKey st req upstream).result =
      .streamed (truthyDeltaPayloads pre) .closed ∧
    catStrings (truthyDeltaPayloads pre) = catStrings (deltaPayloads pre) ∧
    (ridAfter pre "" ≠ "" →
      Store.find? (handleStreamMessage apiKey st req upstream).store
          req.sessionId =
        some ⟨conv.responseIds ++ [ridAfter pre ""],
          conv.messages ++ [⟨.user, req.message⟩,
            ⟨.assistant, catStrings (deltaPayloads pre)⟩]⟩) := by
  have hrun := runLoop_plain_then_done rest
    initLoopState hp hd
  rw [handleStreamMessage_valid hs hm hl hk hc, hu]
  dsimp only
  rw [hrun]
  dsimp only
  refine ⟨?_, catStrings_truthy_eq_all pre, ?_⟩
  · simp [foldl_stepPlain_chunks, initLoopState]
  · intro hrid
    have hb : ((pre.foldl stepPlain initLoopState).responseId == "") = false := by
      rw [foldl_stepPlain_responseId]
      exact beq_eq_false_iff_ne.mpr (by simpa [initLoopState] using hrid)
    simp only [hb, Bool.false_eq_true, if_false]
    rw [Store.find?_set_self, commitStream_appendUser]
    simp [foldl_stepPlain_responseId, foldl_stepPlain_fullResponse,
      initLoopState, catStrings_truthy_eq_all]

/-- Witness for C2 at the spec scenario: deltas `Bon`, `jour` then done; the
caller receives exactly those chunks in order, the channel closes, and the
session commits assistant turn `Bonjour` under token `r1`. -/
theorem claim_C2_amended_witness :
    (handleStreamMessage "k" [("s", ⟨[], []⟩)] ⟨"s", "Hello", "fr"⟩
        (fun _ => some ([⟨"response.created", none, some "r1", true, false⟩,
          ⟨"response.output_text.delta", some "Bon", none, false, false⟩,
          ⟨"response.output_text.delta", some "jour", none, false, false⟩,
          ⟨"response.output_text.done", none, none, false, false⟩],
          false))).result =
      .streamed (truthyDeltaPayloads
        [⟨"response.created", none, some "r1", true, false⟩,
         ⟨"response.output_text.delta", some "Bon", none, false, false⟩,
         ⟨"response.output_text.delta", some "jour", none, false, false⟩])
        .closed ∧
    catStrings (truthyDeltaPayloads
      [⟨"response.created", none, some "r1", true, false⟩,
       ⟨"response.output_text.delta", some "Bon", none, false, false⟩,
       ⟨"response.output_text.delta", some "jour", none, false, false⟩]) =
      catStrings (deltaPayloads
        [⟨"response.created", none, some "r1", true, false⟩,
         ⟨"response.output_text.delta", some "Bon", none, false, false⟩,
         ⟨"response.output_text.delta", some "jour", none, false, false⟩]) ∧
    Store.find? (handleStreamMessage "k" [("s", ⟨[], []⟩)]
        ⟨"s", "Hello", "fr"⟩
        (fun _ => some ([⟨"response.created", none, some "r1", true, false⟩,
          ⟨"response.output_text.delta", some "Bon", none, false, false⟩,
          ⟨"response.output_text.delta", some "jour", none, false, false⟩,
          ⟨"response.output_text.done", none, none, false, false⟩],
          false))).store "s" =
      some ⟨[] ++ [ridAfter
          [⟨"response.created", none, some "r1", true, false⟩,
           ⟨"response.output_text.delta", some "Bon", none, false, false⟩,
           ⟨"response.output_text.delta", some "jour", none, false, false⟩] ""],
        [] ++ [⟨.user, "Hello"⟩, ⟨.assistant, catStrings (deltaPayloads
          [⟨"response.created", none, some "r1", true, false⟩,
           ⟨"response.output_text.delta", some "Bon", none, false, false⟩,
           ⟨"response.output_text.delta", some "jour", none, false, false⟩])⟩]⟩ := by
  have h := claim_C2_amended "k" [("s", ⟨[], []⟩)] ⟨"s", "Hello", "fr"⟩
    (fun _ => some ([⟨"response.created", none, some "r1", true, false⟩,
      ⟨"response.output_text.delta", some "Bon", none, false, false⟩,
      ⟨"response.output_text.delta", some "jour", none, false, false⟩,
      ⟨"response.output_text.done", none, none, false, false⟩], false))
    .fr ⟨[], []⟩
    [⟨"response.created", none, some "r1", true, false⟩,
     ⟨"response.output_text.delta", some "Bon", none, false, false⟩,
     ⟨"response.output_text.delta", some "jour", none, false, false⟩]
    ⟨"response.output_text.done", none, none, false, false⟩ [] false
    (by decide) (by decide) (by decide) (by decide) (by decide)
    (by decide) (by decide) rfl
  exact ⟨h.1, h.2.1, h.2.2 (by decide)⟩

/-- Claim C6: for every streaming relay call in which the completion event
arrives but no creation event ever supplied a response identifier, the
caller's channel is still closed cleanly and the session gains no assistant
turn and no continuation token — only the user turn appended at start. -/
theorem claim_C6_done_without_id (apiKey : String) (st : Store)
    (req : MessageRequest)
    (upstream : UpstreamRequest → Option (List StreamEvent × Bool))
    (lang : TargetLang) (conv : Conversation)
    (pre : List StreamEvent) (d : StreamEvent) (rest : List StreamEvent)
    (throws : Bool)
    (hs : req.sessionId ≠ "") (hm : req.message ≠ "")
    (hl : parseLang req.targetLang = some lang) (hk : apiKey ≠ "")
    (hc : Store.find? st req.sessionId = some conv)
    (hp : ∀ e ∈ pre, e.isPlain = true) (hd : d.isDone = true)
    (hcr : ∀ e ∈ pre, e.type = "response.created" →
      e.response_id.getD "" = "")
    (hu : upstream (sentRequest lang req conv) =
      some (pre ++ d :: rest, throws)) :
    (handleStreamMessage apiKey st req upstream).result =
      .streamed (truthyDeltaPayloads pre) .closed ∧
    Store.find? (handleStreamMessage apiKey st req upstream).store
        req.sessionId =
      some ⟨conv.responseIds, conv.messages ++ [⟨.user, req.message⟩]⟩ := by
  have hrun := runLoop_plain_then_done rest
    initLoopState hp hd
  rw [handleStreamMessage_valid hs hm hl hk hc, hu]
  dsimp only
  rw [hrun]
  dsimp only
  have hb : ((pre.foldl stepPlain initLoopState).responseId == "") = true := by
    rw [foldl_stepPlain_responseId]
    simp [initLoopState, ridAfter_empty_of_all_empty hcr]
  simp only [hb, if_true]
  exact ⟨by simp [foldl_stepPlain_chunks, initLoopState],
    by rw [Store.find?_set_self]; rfl⟩

/-- Witness for C6: a run with a creation event carrying no identifier, one
delta, then done: the channel closes, the chunk is delivered, and the
session records only the user turn. -/
theorem claim_C6_done_without_id_witness :
    (handleStreamMessage "k" [("s", ⟨[], []⟩)] ⟨"s", "Hello", "fr"⟩
        (fun _ => some ([⟨"response.created", none, none, true, false⟩,
          ⟨"response.output_text.delta", some "Hi", none, false, false⟩,
          ⟨"response.output_text.done", none, none, false, false⟩],
          false))).result =
      .streamed (truthyDeltaPayloads
        [⟨"response.created", none, none, true, false⟩,
         ⟨"response.output_text.delta", some "Hi", none, false, false⟩])
        .closed ∧
    Store.find? (handleStreamMessage "k" [("s", ⟨[], []⟩)]
        ⟨"s", "Hello", "fr"⟩
        (fun _ => some ([⟨"response.created", none, none, true, false⟩,
          ⟨"response.output_text.delta", some "Hi", none, false, false⟩,
          ⟨"response.output_text.done", none, none, false, false⟩],
          false))).store "s" =
      some ⟨[], [] ++ [⟨.user, "Hello"⟩]⟩ :=
  claim_C6_done_without_id "k" [("s", ⟨[], []⟩)] ⟨"s", "Hello", "fr"⟩
    (fun _ => some ([⟨"response.created", none, none, true, false⟩,
      ⟨"response.output_text.delta", some "Hi", none, false, false⟩,
      ⟨"response.output_text.done", none, none, false, false⟩], false))
    .fr ⟨[], []⟩
    [⟨"response.created", none, none, true, false⟩,
     ⟨"response.output_text.delta", some "Hi", none, false, false⟩]
    ⟨"response.output_text.done", none, none, false, false⟩ [] false
    (by decide) (by decide) (by decide) (by decide) (by decide)
    (by decide) (by decide) (by decide) rfl

/-- Claim C10: for every streaming relay call whose upstream event sequence
ends without a completion or error event (silent truncation, iterator
exhausted without throwing), the session is nevertheless mutated when a
response identifier was captured — the accumulated buffer is committed as an
assistant turn with that identifier as continuation token — while the
caller's channel is never closed. -/
theorem claim_C10_truncation (apiKey : String) (st : Store)
    (req : MessageRequest)
    (upstream : UpstreamRequest → Option (List StreamEvent × Bool))
    (lang : TargetLang) (conv : Conversation) (evs : List StreamEvent)
    (hs : req.sessionId ≠ "") (hm : req.message ≠ "")
    (hl : parseLang req.targetLang = some lang) (hk : apiKey ≠ "")
    (hc : Store.find? st req.sessionId = some conv)
    (hp : ∀ e ∈ evs, e.isPlain = true)
    (hrid : ridAfter evs "" ≠ "")
    (hu : upstream (sentRequest lang req conv) = some (evs, false)) :
    (handleStreamMessage apiKey st req upstream).result =
      .streamed (truthyDeltaPayloads evs) .open_ ∧
    Store.find? (handleStreamMessage apiKey st req upstream).store
        req.sessionId =
      some ⟨conv.responseIds ++ [ridAfter evs ""],
        conv.messages ++ [⟨.user, req.message⟩,
          ⟨.assistant, catStrings (truthyDeltaPayloads evs)⟩]⟩ := by
  rw [handleStreamMessage_valid hs hm hl hk hc, hu]
  dsimp only
  rw [runLoop_all_plain initLoopState hp]
  dsimp only
  simp only [Bool.false_eq_true, if_false]
  have hb : ((evs.foldl stepPlain initLoopState).responseId == "") = false := by
    rw [foldl_stepPlain_responseId]
    exact beq_eq_false_iff_ne.mpr (by simpa [initLoopState] using hrid)
  simp only [hb, Bool.false_eq_true, if_false]
  refine ⟨?_, ?_⟩
  · simp [foldl_stepPlain_chunks, foldl_stepPlain_channel, initLoopState]
  · rw [Store.find?_set_self, commitStream_appendUser]
    simp [foldl_stepPlain_responseId, foldl_stepPlain_fullResponse,
      initLoopState]

/-- Witness for C10: a creation event with id `r1` and one delta, then the
iterator ends with no done and no error: the channel never closes yet the
session commits the buffered text under token `r1`. -/
theorem claim_C10_truncation_witness :
    (handleStreamMessage "k" [("s", ⟨[], []⟩)] ⟨"s", "Hello", "fr"⟩
        (fun _ => some ([⟨"response.created", none, some "r1", true, false⟩,
          ⟨"response.output_text.delta", some "Bonj", none, false, false⟩],
          false))).result =
      .streamed (truthyDeltaPayloads
        [⟨"response.created", none, some "r1", true, false⟩,
         ⟨"response.output_text.delta", some "Bonj", none, false, false⟩])
        .open_ ∧
    Store.find? (handleStreamMessage "k" [("s", ⟨[], []⟩)]
        ⟨"s", "Hello", "fr"⟩
        (fun _ => some ([⟨"response.created", none, some "r1", true, false⟩,
          ⟨"response.output_text.delta", some "Bonj", none, false, false⟩],
          false))).store "s" =
      some ⟨[] ++ [ridAfter
          [⟨"response.created", none, some "r1", true, false⟩,
           ⟨"response.output_text.delta", some "Bonj", none, false, false⟩] ""],
        [] ++ [⟨.user, "Hello"⟩, ⟨.assistant, catStrings (truthyDeltaPayloads
          [⟨"response.created", none, some "r1", true, false⟩,
           ⟨"response.output_text.delta", some "Bonj", none, false, false⟩])⟩]⟩ :=
  claim_C10_truncation "k" [("s", ⟨[], []⟩)] ⟨"s", "Hello", "fr"⟩
    (fun _ => some ([⟨"response.created", none, some "r1", true, false⟩,
      ⟨"response.output_text.delta", some "Bonj", none, false, false⟩],
      false))
    .fr ⟨[], []⟩
    [⟨"response.created", none, some "r1", true, false⟩,
     ⟨"response.output_text.delta", some "Bonj", none, false, false⟩]
    (by decide) (by decide) (by decide) (by decide) (by decide)
    (by decide) (by decide) rfl

/-- Claim C8: the language policy resolver is a pure function; for every
supported code the resolved instruction text contains the name of that
target language, and distinct codes resolve to distinct texts. -/
theorem claim_C8_language_policy :
    (∀ l : TargetLang,
      strContainsSub (getLanguageInstructions l) (langName l) = true) ∧
    (∀ l₁ l₂ : TargetLang, l₁ ≠ l₂ →
      getLanguageInstructions l₁ ≠ getLanguageInstructions l₂) := by
  constructor
  · decide
  · decide

/-- Witness for C8 at `fr` and `es`: the French instruction text contains
`French` and differs from the Spanish one. -/
theorem claim_C8_language_policy_witness :
    strContainsSub (getLanguageInstructions .fr) (langName .fr) = true ∧
    getLanguageInstructions .fr ≠ getLanguageInstructions .es :=
  ⟨claim_C8_language_policy.1 .fr,
   claim_C8_language_policy.2 .fr .es (by decide)⟩

/-- Counterexample to claim C9 as stated: the identifier is built from the
millisecond timestamp and a random base-36 suffix, so two create calls whose
oracle draws coincide (same millisecond, same random output) return the very
same identifier — uniqueness is collision-resistance, not a guarantee. -/
theorem claim_C9_counterexample :
    (runCreates [(100, "abc"), (100, "abc")] []).2 =
      ["session_100_abc", "session_100_abc"] ∧
    ¬ ((runCreates [(100, "abc"), (100, "abc")] []).2).Nodup := by
  refine ⟨by decide, by decide⟩

/-- Claim C9 (amended): N create calls yield N pairwise-distinct session
identifiers provided the random suffixes drawn by the calls are pairwise
distinct (suffixes are base-36 digit strings, hence never contain an
underscore); with colliding draws an identifier can repeat, and the
colliding create silently resets the existing session. -/
theorem claim_C9_amended (draws : List (Nat × String))
    (hU : ∀ d ∈ draws, ('_' : Char) ∉ d.2.data)
    (hN : (draws.map Prod.snd).Nodup) :
    ((runCreates draws []).2).Nodup := by
  rw [runCreates_ids]
  refine List.Nodup.map_on ?_ (List.Nodup.of_map Prod.snd hN)
  intro x hx y hy hxy
  have h2 : x.2 = y.2 := mkSessionId_rand_inj (hU x hx) (hU y hy) hxy
  exact List.inj_on_of_nodup_map hN hx hy h2

/-- Witness for C9: three creates with distinct random suffixes yield three
distinct identifiers. -/
theorem claim_C9_amended_witness :
    ((runCreates [(100, "abc"), (100, "xyz"), (250, "def")] []).2).Nodup :=
  claim_C9_amended [(100, "abc"), (100, "xyz"), (250, "def")]
    (by decide) (by decide)

end Pollygolt
